import Mathlib

/-!
Shallow embedding of `src/migration_time.py` (`calculate_migration_time`).

Timestamps are modelled as timezone-naive instants measured in whole seconds
on an unbounded integer axis; Python `datetime` comparison is the total order
on such instants, and `.replace(tzinfo=None)` is the identity on the naive
instants we model. A calendar date parsed by `strptime(s, "%Y-%m-%d")` lands
on midnight of its day, so a calendar day `d` covers the half-open span
`[86400*d, 86400*(d+1))` of instants and the parsed value is `86400*d`.
Report rendering (`write_output`, `format_size`, string formatting) is
presentation and is kept as structured data instead of text lines.
-/

/-- Seconds in one day; `timedelta(days=n)` is `n * 86400` seconds. -/
def secondsPerDay : Int := 86400

/-- Instant produced by `datetime.strptime(s, "%Y-%m-%d")` for the calendar
day numbered `d`: midnight (start of day) of that day. -/
def parseDate (d : Int) : Int := secondsPerDay * d

/-- Cutoff `one_year_ago = datetime.now() - timedelta(days=365)` (line 58). -/
def oneYearAgo (now : Int) : Int := now - 365 * secondsPerDay

/-- One entry of `describe_images`' `imageDetails`, with exactly the keys the
script reads: `imageSizeInBytes`, `imageTags` (optional key, possibly an empty
list), `imagePushedAt`, `lastRecordedPullTime` (optional key). Sizes are kept
as unbounded integers, as in Python. -/
structure ImageDetail where
  imageSizeInBytes : Int
  imageTags : Option (List String)
  imagePushedAt : Int
  lastRecordedPullTime : Option Int
deriving DecidableEq, Repr

/-- Date-range test at line 148:
`start_date <= push_date.replace(tzinfo=None) <= end_date`. -/
def inDateRange (startDate endDate push : Int) : Bool :=
  decide (startDate ≤ push) && decide (push ≤ endDate)

/-- Filter pass at lines 144-149 collecting `images_in_date_range`. -/
def imagesInDateRange (startDate endDate : Int) (imgs : List ImageDetail) :
    List ImageDetail :=
  imgs.filter (fun image => inDateRange startDate endDate image.imagePushedAt)

/-- Decision `should_migrate` of lines 169-183: migrate when never pulled, or
when `last_pulled.replace(tzinfo=None) < one_year_ago` (strict). -/
def shouldMigrate (cutoff : Int) (image : ImageDetail) : Bool :=
  match image.lastRecordedPullTime with
  | none => true
  | some lastPulled => decide (lastPulled < cutoff)

/-- Days since the last pull, `(datetime.now() - last_pulled).days`
(lines 178 and 182); Python's `timedelta.days` floors. -/
def daysSincePull (now lastPulled : Int) : Int :=
  (now - lastPulled).fdiv secondsPerDay

/-- The `status_reason` strings of lines 173-183, kept structured:
`"Never pulled"`, `"Last pulled N days ago"`, `"Pulled N days ago (recent)"`. -/
inductive Reason where
  | neverPulled : Reason
  | stalePull (days : Int) : Reason
  | recentPull (days : Int) : Reason
deriving DecidableEq, Repr

/-- Reason computed alongside `should_migrate` in lines 169-183. -/
def statusReason (now cutoff : Int) (image : ImageDetail) : Reason :=
  match image.lastRecordedPullTime with
  | none => Reason.neverPulled
  | some lastPulled =>
    if lastPulled < cutoff then Reason.stalePull (daysSincePull now lastPulled)
    else Reason.recentPull (daysSincePull now lastPulled)

/-- Net per-image classification: an image is counted as "migrate" exactly
when it survives the date-range filter (line 148) and the recency decision
of lines 173-178 fires. -/
def imageEligible (startDate endDate cutoff : Int) (image : ImageDetail) : Bool :=
  inDateRange startDate endDate image.imagePushedAt && shouldMigrate cutoff image

/-- Tag selection at lines 164-165:
`tags = image.get('imageTags', ['<untagged>']); tags[0] if tags else '<untagged>'`. -/
def tagName (image : ImageDetail) : String :=
  match image.imageTags with
  | none => "<untagged>"
  | some [] => "<untagged>"
  | some (t :: _) => t

/-- One dict appended to `migration_details` / `kept_details`
(lines 198-204 and 212-218). -/
structure MigrationDetail where
  repo : String
  tag : String
  size : Int
  pushDate : Int
  reason : Reason
deriving DecidableEq, Repr

/-- Entry built at lines 198-204 (same shape at 212-218). -/
def mkDetail (now cutoff : Int) (repoName : String) (image : ImageDetail) :
    MigrationDetail :=
  { repo := repoName, tag := tagName image, size := image.imageSizeInBytes,
    pushDate := image.imagePushedAt, reason := statusReason now cutoff image }

/-- The per-repository accumulators `repo_migrate_count`, `repo_keep_count`,
`repo_migrate_size` (lines 130-132) plus the per-repository slices of
`migration_details` and `kept_details`. -/
structure RepoResult where
  migrateCount : Nat
  keepCount : Nat
  migrateSize : Int
  migrationDetails : List MigrationDetail
  keptDetails : List MigrationDetail
deriving DecidableEq, Repr

def emptyRepoResult : RepoResult :=
  { migrateCount := 0, keepCount := 0, migrateSize := 0,
    migrationDetails := [], keptDetails := [] }

/-- Body of the per-image loop (lines 162-218): exactly one of the migrate or
keep branches runs, updating the corresponding counters and detail list. -/
def processImage (now cutoff : Int) (repoName : String) (acc : RepoResult)
    (image : ImageDetail) : RepoResult :=
  if shouldMigrate cutoff image then
    { acc with migrateCount := acc.migrateCount + 1,
               migrateSize := acc.migrateSize + image.imageSizeInBytes,
               migrationDetails :=
                 acc.migrationDetails ++ [mkDetail now cutoff repoName image] }
  else
    { acc with keepCount := acc.keepCount + 1,
               keptDetails :=
                 acc.keptDetails ++ [mkDetail now cutoff repoName image] }

/-- Run configuration: parsed `start_date`, `end_date` and the wall clock
`datetime.now()` sampled at line 58. -/
structure Config where
  startDate : Int
  endDate : Int
  now : Int

/-- Evaluation of one repository (lines 137-218): collect the images in the
date range, then classify each in order. -/
def processRepo (cfg : Config) (repoName : String) (imgs : List ImageDetail) :
    RepoResult :=
  (imagesInDateRange cfg.startDate cfg.endDate imgs).foldl
    (processImage cfg.now (oneYearAgo cfg.now) repoName) emptyRepoResult

/-- The global accumulators of lines 95-102, plus `failures`: one record per
repository whose image listing raised, modelling the
`[ERROR] Failed to process repository: ...` line (line 229) written inside
the report block that line 134 heads with the repository name. -/
structure GlobalAcc where
  totalSizeBytes : Int
  totalImagesToMigrate : Nat
  totalImagesToKeep : Nat
  repositoriesProcessed : Nat
  repositoriesWithMigrations : Nat
  migrationDetails : List MigrationDetail
  keptDetails : List MigrationDetail
  failures : List (String × String)
deriving DecidableEq, Repr

def initialAcc : GlobalAcc :=
  { totalSizeBytes := 0, totalImagesToMigrate := 0, totalImagesToKeep := 0,
    repositoriesProcessed := 0, repositoriesWithMigrations := 0,
    migrationDetails := [], keptDetails := [], failures := [] }

/-- Effect of the `except` branch at lines 228-229 on the run state: the
repository still counts as processed (line 128 ran before the `try`), a
failure record is emitted, and nothing else changes. -/
def recordFailure (acc : GlobalAcc) (name msg : String) : GlobalAcc :=
  { acc with repositoriesProcessed := acc.repositoriesProcessed + 1,
             failures := acc.failures ++ [(name, msg)] }

/-- One iteration of the repository loop (lines 126-233). The image listing
by the external collaborator (`describe_images` pagination, lines 139-149)
may raise; that outcome is the `Except` in the input. On success the global
counters absorb the repository result; on failure the failure is recorded and
the loop moves on. -/
def step (cfg : Config) (acc : GlobalAcc)
    (repo : String × Except String (List ImageDetail)) : GlobalAcc :=
  match repo with
  | (name, Except.error e) => recordFailure acc name e
  | (name, Except.ok imgs) =>
    let r := processRepo cfg name imgs
    { acc with
      repositoriesProcessed := acc.repositoriesProcessed + 1,
      repositoriesWithMigrations :=
        acc.repositoriesWithMigrations + (if 0 < r.migrateCount then 1 else 0),
      totalImagesToMigrate := acc.totalImagesToMigrate + r.migrateCount,
      totalImagesToKeep := acc.totalImagesToKeep + r.keepCount,
      totalSizeBytes := acc.totalSizeBytes + r.migrateSize,
      migrationDetails := acc.migrationDetails ++ r.migrationDetails,
      keptDetails := acc.keptDetails ++ r.keptDetails }

/-- Repository loop continued from an intermediate run state. -/
def processReposFrom (cfg : Config) (acc : GlobalAcc)
    (repos : List (String × Except String (List ImageDetail))) : GlobalAcc :=
  repos.foldl (step cfg) acc

/-- The whole repository loop of lines 126-233 from the fresh state. -/
def processRepos (cfg : Config)
    (repos : List (String × Except String (List ImageDetail))) : GlobalAcc :=
  processReposFrom cfg initialAcc repos

/-- Date validation of lines 49-55. An argument `none` models a missing or
malformed date string (the `TypeError` / `ValueError` cases of `strptime`);
`some d` models a well-formed `YYYY-MM-DD` string naming calendar day `d`.
The code only attempts to parse the two strings; it performs no comparison
between the parsed dates. -/
def parseConfigDates : Option Int → Option Int → Except String (Int × Int)
  | some s, some e => Except.ok (parseDate s, parseDate e)
  | _, _ => Except.error "Invalid date format. Use YYYY-MM-DD."

/-- Migration speed constant `speed_mb_per_sec = 1.33` (line 236), as the
exact rational it denotes. -/
def speedMBPerSec : ℚ := 133 / 100

/-- `total_size_mb = total_size_bytes / (1024 * 1024)` (line 237). -/
def totalSizeMB (totalBytes : Int) : ℚ := (totalBytes : ℚ) / (1024 * 1024)

/-- `time_seconds = total_size_mb / speed_mb_per_sec if total_size_mb > 0
else 0` (line 238). -/
def timeSeconds (totalBytes : Int) : ℚ :=
  if totalSizeMB totalBytes > 0 then totalSizeMB totalBytes / speedMBPerSec else 0

/-- `time_minutes = time_seconds / 60` (line 239). -/
def timeMinutes (totalBytes : Int) : ℚ := timeSeconds totalBytes / 60

/-- `time_hours = time_minutes / 60` (line 240). -/
def timeHours (totalBytes : Int) : ℚ := timeMinutes totalBytes / 60

/-- `time_days = time_hours / 24` (line 241). -/
def timeDays (totalBytes : Int) : ℚ := timeHours totalBytes / 24

/-- Comparison handed to the sort at line 291: Python
`sorted(..., key=lambda x: x['size'], reverse=True)` orders by size
descending and, being stable, keeps encounter order among equal sizes. -/
def sizeDescLe (a b : MigrationDetail) : Bool := decide (b.size ≤ a.size)

/-- Line 291: `sorted(migration_details, key=lambda x: x['size'],
reverse=True)[:10]`, as a stable merge sort followed by truncation to 10.
`sorted` returns a fresh list, leaving `migration_details` untouched. -/
def sortedMigrations (l : List MigrationDetail) : List MigrationDetail :=
  (l.mergeSort sizeDescLe).take 10

/-- Report slice holding both the encounter-ordered `migration_details` and
the derived top-10 list (lines 282-296). -/
structure FinalReport where
  migrationDetails : List MigrationDetail
  topMigrations : List MigrationDetail
deriving DecidableEq, Repr

/-- Construction of the top-10 section from the finished run state. -/
def buildReport (acc : GlobalAcc) : FinalReport :=
  { migrationDetails := acc.migrationDetails,
    topMigrations := sortedMigrations acc.migrationDetails }

/-- Eligibility as the spec sentence words it, for comparison with the
implemented classification `imageEligible`: pushed within
`[startDate, endDate]` AND (`lastPulledAt` absent OR `lastPulledAt` older
than the recency cutoff). -/
def specPerImageRecencyEligible (startDate endDate cutoff : Int)
    (image : ImageDetail) : Prop :=
  (startDate ≤ image.imagePushedAt ∧ image.imagePushedAt ≤ endDate) ∧
    (image.lastRecordedPullTime = none ∨
      ∃ lp, image.lastRecordedPullTime = some lp ∧ lp < cutoff)

/-- C1: for every image, the implemented per-image recency policy counts it
as eligible for migration if and only if its push instant falls within
`[startDate, endDate]` and its last pull is absent or strictly older than
the cutoff `now` minus 365 days. -/
theorem perImageRecency_eligible_iff (startDate endDate now : Int)
    (image : ImageDetail) :
    imageEligible startDate endDate (oneYearAgo now) image = true ↔
      specPerImageRecencyEligible startDate endDate (oneYearAgo now) image := by
  obtain ⟨sz, tags, push, lp⟩ := image
  cases lp with
  | none =>
    simp [imageEligible, inDateRange, shouldMigrate, specPerImageRecencyEligible]
  | some t =>
    simp [imageEligible, inDateRange, shouldMigrate, specPerImageRecencyEligible]

/-- C2: the code parses `END_DATE` to midnight (start of day), so an image
pushed at noon on the calendar day `END_DATE` names lies on that calendar
day yet is excluded from the date range and classified ineligible, even
though it was never pulled. -/
theorem endDate_startOfDay_excludes_push_on_endDate :
    (parseDate 10 ≤ parseDate 10 + 43200 ∧ parseDate 10 + 43200 < parseDate (10 + 1))
    ∧ inDateRange (parseDate 0) (parseDate 10) (parseDate 10 + 43200) = false
    ∧ imageEligible (parseDate 0) (parseDate 10) (oneYearAgo 86400000)
        { imageSizeInBytes := 500, imageTags := some ["v1"],
          imagePushedAt := parseDate 10 + 43200,
          lastRecordedPullTime := none } = false := by
  decide

/-- C3 counterexample: a configuration whose start date (day 100) is after
its end date (day 50) is not rejected; date validation accepts it. -/
theorem invertedRange_not_rejected :
    parseDate 50 < parseDate 100
    ∧ parseConfigDates (some 100) (some 50)
        = Except.ok (parseDate 100, parseDate 50) := by
  exact ⟨by decide, rfl⟩

/-- C3 amended: when `startDate > endDate`, validation still accepts the
configuration (it only checks date format) and evaluation proceeds with an
empty effective range: no push instant satisfies the range test. -/
theorem invertedRange_accepted_and_empty (s e p : Int) (h : e < s) :
    parseConfigDates (some s) (some e) = Except.ok (parseDate s, parseDate e)
    ∧ inDateRange (parseDate s) (parseDate e) p = false := by
  refine ⟨rfl, ?_⟩
  simp only [inDateRange, parseDate, secondsPerDay, Bool.and_eq_false_iff,
    decide_eq_false_iff_not, not_le]
  omega

/-- Witness for the C3 amended theorem at days 1 and 0 and push instant
43200. -/
theorem invertedRange_accepted_and_empty_witness :
    (0 : Int) < 1
    ∧ (parseConfigDates (some 1) (some 0) = Except.ok (parseDate 1, parseDate 0)
       ∧ inDateRange (parseDate 1) (parseDate 0) 43200 = false) :=
  ⟨by decide, invertedRange_accepted_and_empty 1 0 43200 (by decide)⟩

/-- C4: the recency comparison is strict. For any image inside the date
range, a last pull exactly `now` minus 365 days is not eligible, one 366
days old is eligible, and one 364 days old is not. -/
theorem recencyCutoff_strict (startDate endDate now sz : Int)
    (tags : Option (List String)) (push : Int)
    (h : inDateRange startDate endDate push = true) :
    imageEligible startDate endDate (oneYearAgo now)
      ⟨sz, tags, push, some (now - 365 * secondsPerDay)⟩ = false
    ∧ imageEligible startDate endDate (oneYearAgo now)
      ⟨sz, tags, push, some (now - 366 * secondsPerDay)⟩ = true
    ∧ imageEligible startDate endDate (oneYearAgo now)
      ⟨sz, tags, push, some (now - 364 * secondsPerDay)⟩ = false := by
  refine ⟨?_, ?_, ?_⟩ <;>
    simp [imageEligible, shouldMigrate, oneYearAgo, secondsPerDay, h]

/-- Witness for the strict-cutoff theorem at concrete instants. -/
theorem recencyCutoff_strict_witness :
    inDateRange 0 864000 432000 = true
    ∧ (imageEligible 0 864000 (oneYearAgo 86400000)
        ⟨100, none, 432000, some (86400000 - 365 * secondsPerDay)⟩ = false
      ∧ imageEligible 0 864000 (oneYearAgo 86400000)
        ⟨100, none, 432000, some (86400000 - 366 * secondsPerDay)⟩ = true
      ∧ imageEligible 0 864000 (oneYearAgo 86400000)
        ⟨100, none, 432000, some (86400000 - 364 * secondsPerDay)⟩ = false) :=
  ⟨by decide, recencyCutoff_strict 0 864000 86400000 100 none 432000 (by decide)⟩

/-- C6: the estimator computes `seconds = totalBytes / (1024*1024) /
speedMBPerSec` for every non-negative byte total, derives minutes, hours and
days by dividing by 60, 60 and 24, and all four durations are exactly 0 when
the byte total is 0. -/
theorem estimator_formula (tb : Int) (h : 0 ≤ tb) :
    timeSeconds tb = (tb : ℚ) / (1024 * 1024) / speedMBPerSec
    ∧ timeMinutes tb = timeSeconds tb / 60
    ∧ timeHours tb = timeMinutes tb / 60
    ∧ timeDays tb = timeHours tb / 24
    ∧ timeSeconds 0 = 0 ∧ timeMinutes 0 = 0 ∧ timeHours 0 = 0 ∧ timeDays 0 = 0 := by
  have hz : timeSeconds 0 = 0 := by
    simp [timeSeconds, totalSizeMB]
  have hs : timeSeconds tb = (tb : ℚ) / (1024 * 1024) / speedMBPerSec := by
    rcases eq_or_lt_of_le h with h0 | h0
    · rw [← h0, hz]
      norm_num
    · have hpos : totalSizeMB tb > 0 := by
        have : (0 : ℚ) < (tb : ℚ) := by exact_mod_cast h0
        exact div_pos this (by norm_num)
      rw [timeSeconds, if_pos hpos]
      rfl
  refine ⟨hs, rfl, rfl, rfl, hz, ?_, ?_, ?_⟩ <;>
    simp [timeMinutes, timeHours, timeDays, hz]

/-- Witness for the estimator theorem at 798 MiB (798 * 1024 * 1024 bytes). -/
theorem estimator_formula_witness :
    0 ≤ (836763648 : Int)
    ∧ (timeSeconds 836763648 = (836763648 : ℚ) / (1024 * 1024) / speedMBPerSec
      ∧ timeMinutes 836763648 = timeSeconds 836763648 / 60
      ∧ timeHours 836763648 = timeMinutes 836763648 / 60
      ∧ timeDays 836763648 = timeHours 836763648 / 24
      ∧ timeSeconds 0 = 0 ∧ timeMinutes 0 = 0 ∧ timeHours 0 = 0 ∧ timeDays 0 = 0) :=
  ⟨by norm_num, estimator_formula 836763648 (by norm_num)⟩

/-- C8: an image with no recorded pull whose push instant is inside the date
range is classified eligible with reason `neverPulled`, a reason distinct
from every `stalePull` reason. -/
theorem neverPulled_eligible (startDate endDate now sz : Int)
    (tags : Option (List String)) (push : Int)
    (h : inDateRange startDate endDate push = true) :
    imageEligible startDate endDate (oneYearAgo now) ⟨sz, tags, push, none⟩ = true
    ∧ statusReason now (oneYearAgo now) ⟨sz, tags, push, none⟩ = Reason.neverPulled
    ∧ ∀ d : Int, Reason.neverPulled ≠ Reason.stalePull d := by
  refine ⟨by simp [imageEligible, shouldMigrate, h], rfl,
    fun d hc => Reason.noConfusion hc⟩

/-- Witness for the never-pulled theorem at concrete instants. -/
theorem neverPulled_eligible_witness :
    inDateRange 0 864000 432000 = true
    ∧ (imageEligible 0 864000 (oneYearAgo 86400000) ⟨100, none, 432000, none⟩ = true
      ∧ statusReason 86400000 (oneYearAgo 86400000) ⟨100, none, 432000, none⟩
          = Reason.neverPulled
      ∧ ∀ d : Int, Reason.neverPulled ≠ Reason.stalePull d) :=
  ⟨by decide, neverPulled_eligible 0 864000 86400000 100 none 432000 (by decide)⟩

/-- C9 counterexample: an image with negative `imageSizeInBytes` (pushed in
range, never pulled) is classified eligible, counted as a migration, and its
negative size is added to the migration byte total; it is not classified
ineligible with any out-of-range reason. -/
theorem negativeSize_counted_toward_migration :
    (processRepo ⟨0, 864000, 86400000⟩ "repo"
        [⟨-100, some ["v1"], 432000, none⟩]).migrateCount = 1
    ∧ (processRepo ⟨0, 864000, 86400000⟩ "repo"
        [⟨-100, some ["v1"], 432000, none⟩]).keepCount = 0
    ∧ (processRepo ⟨0, 864000, 86400000⟩ "repo"
        [⟨-100, some ["v1"], 432000, none⟩]).migrateSize = -100
    ∧ imageEligible 0 864000 (oneYearAgo 86400000)
        ⟨-100, some ["v1"], 432000, none⟩ = true := by
  refine ⟨rfl, rfl, rfl, by decide⟩

/-- C9 amended: classification never inspects `imageSizeInBytes` at all (the
pass stays total, nothing raises), so an otherwise-qualifying image with an
impossible negative size is classified eligible and counted toward migration
totals rather than being classified ineligible. -/
theorem classification_ignores_size (startDate endDate cutoff now sz sz' : Int)
    (tags : Option (List String)) (push : Int) (lp : Option Int) :
    imageEligible startDate endDate cutoff ⟨sz, tags, push, lp⟩
      = imageEligible startDate endDate cutoff ⟨sz', tags, push, lp⟩
    ∧ statusReason now cutoff ⟨sz, tags, push, lp⟩
      = statusReason now cutoff ⟨sz', tags, push, lp⟩ :=
  ⟨rfl, rfl⟩

/-- Helper: splitting a list by a boolean predicate splits its length. -/
theorem length_filter_partition {α : Type} (p : α → Bool) (l : List α) :
    (l.filter p).length + (l.filter (fun a => !p a)).length = l.length := by
  induction l with
  | nil => rfl
  | cons hd tl ih =>
    rcases Bool.eq_false_or_eq_true (p hd) with h | h <;>
      simp [List.filter_cons, h] <;> omega

/-- Helper: the per-image loop adds to `migrateCount` exactly the number of
images the recency decision migrates. -/
theorem foldl_migrateCount (now cutoff : Int) (repoName : String)
    (imgs : List ImageDetail) (acc : RepoResult) :
    (imgs.foldl (processImage now cutoff repoName) acc).migrateCount
      = acc.migrateCount + (imgs.filter (shouldMigrate cutoff)).length := by
  induction imgs generalizing acc with
  | nil => simp
  | cons hd tl ih =>
    rcases Bool.eq_false_or_eq_true (shouldMigrate cutoff hd) with h | h <;>
      simp +arith [List.filter_cons, h, ih, processImage]

/-- Helper: the per-image loop adds to `keepCount` exactly the number of
images the recency decision keeps. -/
theorem foldl_keepCount (now cutoff : Int) (repoName : String)
    (imgs : List ImageDetail) (acc : RepoResult) :
    (imgs.foldl (processImage now cutoff repoName) acc).keepCount
      = acc.keepCount + (imgs.filter (fun i => !shouldMigrate cutoff i)).length := by
  induction imgs generalizing acc with
  | nil => simp
  | cons hd tl ih =>
    rcases Bool.eq_false_or_eq_true (shouldMigrate cutoff hd) with h | h <;>
      simp +arith [List.filter_cons, h, ih, processImage]

/-- Helper: the per-image loop adds to `migrateSize` exactly the sizes of the
migrated images. -/
theorem foldl_migrateSize (now cutoff : Int) (repoName : String)
    (imgs : List ImageDetail) (acc : RepoResult) :
    (imgs.foldl (processImage now cutoff repoName) acc).migrateSize
      = acc.migrateSize + ((imgs.filter (shouldMigrate cutoff)).map
          (fun i => i.imageSizeInBytes)).sum := by
  induction imgs generalizing acc with
  | nil => simp
  | cons hd tl ih =>
    rcases Bool.eq_false_or_eq_true (shouldMigrate cutoff hd) with h | h
    · simp [List.filter_cons, h, ih, processImage]
      omega
    · simp [List.filter_cons, h, ih, processImage]

/-- Helper: the per-image loop appends to `migrationDetails` exactly one
entry per migrated image, in order. -/
theorem foldl_migrationDetails (now cutoff : Int) (repoName : String)
    (imgs : List ImageDetail) (acc : RepoResult) :
    (imgs.foldl (processImage now cutoff repoName) acc).migrationDetails
      = acc.migrationDetails ++ (imgs.filter (shouldMigrate cutoff)).map
          (mkDetail now cutoff repoName) := by
  induction imgs generalizing acc with
  | nil => simp
  | cons hd tl ih =>
    rcases Bool.eq_false_or_eq_true (shouldMigrate cutoff hd) with h | h <;>
      simp [List.filter_cons, h, ih, processImage]

/-- C7: a repository whose image listing fails contributes exactly one
failure record, carrying its name and the error message, to the run state;
the loop then continues over the remaining repositories from that state, and
recording a failure alters no byte total, image counter or detail list. -/
theorem repoFailure_recorded_run_continues (cfg : Config)
    (xs ys : List (String × Except String (List ImageDetail))) (n e : String) :
    processRepos cfg (xs ++ (n, Except.error e) :: ys)
      = processReposFrom cfg (recordFailure (processRepos cfg xs) n e) ys
    ∧ ∀ acc : GlobalAcc,
        (recordFailure acc n e).failures = acc.failures ++ [(n, e)]
        ∧ (recordFailure acc n e).repositoriesProcessed
            = acc.repositoriesProcessed + 1
        ∧ (recordFailure acc n e).totalSizeBytes = acc.totalSizeBytes
        ∧ (recordFailure acc n e).totalImagesToMigrate = acc.totalImagesToMigrate
        ∧ (recordFailure acc n e).totalImagesToKeep = acc.totalImagesToKeep
        ∧ (recordFailure acc n e).migrationDetails = acc.migrationDetails
        ∧ (recordFailure acc n e).keptDetails = acc.keptDetails := by
  constructor
  · simp [processRepos, processReposFrom, List.foldl_append, step]
  · intro acc
    exact ⟨rfl, rfl, rfl, rfl, rfl, rfl, rfl⟩

/-- Helper: a repository result ties its migrated-byte total and migrate
count to its own detail list. -/
theorem processRepo_detail_sums (cfg : Config) (repoName : String)
    (imgs : List ImageDetail) :
    (processRepo cfg repoName imgs).migrateSize
      = ((processRepo cfg repoName imgs).migrationDetails.map
          (fun d => d.size)).sum
    ∧ (processRepo cfg repoName imgs).migrateCount
      = (processRepo cfg repoName imgs).migrationDetails.length := by
  constructor
  · simp only [processRepo, foldl_migrateSize, foldl_migrationDetails]
    simp [emptyRepoResult, List.map_map]
    rfl
  · simp only [processRepo, foldl_migrateCount, foldl_migrationDetails]
    simp [emptyRepoResult]

/-- Helper: the repository loop preserves the invariant that the global byte
total and migrate count are the sum of sizes and the length of the global
migration detail list. -/
theorem processReposFrom_inv (cfg : Config)
    (repos : List (String × Except String (List ImageDetail))) (acc : GlobalAcc)
    (hb : acc.totalSizeBytes = (acc.migrationDetails.map (fun d => d.size)).sum)
    (hc : acc.totalImagesToMigrate = acc.migrationDetails.length) :
    (processReposFrom cfg acc repos).totalSizeBytes
      = ((processReposFrom cfg acc repos).migrationDetails.map
          (fun d => d.size)).sum
    ∧ (processReposFrom cfg acc repos).totalImagesToMigrate
      = (processReposFrom cfg acc repos).migrationDetails.length := by
  induction repos generalizing acc with
  | nil => exact ⟨hb, hc⟩
  | cons hd tl ih =>
    obtain ⟨name, fetch⟩ := hd
    have hstep : processReposFrom cfg acc ((name, fetch) :: tl)
        = processReposFrom cfg (step cfg acc (name, fetch)) tl := rfl
    rw [hstep]
    cases fetch with
    | error e => exact ih _ hb hc
    | ok imgs =>
      apply ih
      · have h1 := (processRepo_detail_sums cfg name imgs).1
        simp [step, List.map_append, List.sum_append, hb, h1]
      · have h2 := (processRepo_detail_sums cfg name imgs).2
        simp [step, List.map_append, List.length_append, hc, h2]

/-- C10: for a successfully processed repository, every image inside the
date range is counted in exactly one of the migrate and keep counters (the
two counters partition the in-range images and the migrate counter counts
exactly the eligible images), images pushed outside the range contribute to
no counter, detail list or byte total (the repository result depends only on
the in-range images), and the global eligible-byte total is exactly the sum
of the sizes of the images counted as migrations. -/
theorem inRange_partition_and_byteTotal (cfg : Config) (repoName : String)
    (imgs : List ImageDetail)
    (repos : List (String × Except String (List ImageDetail))) :
    (processRepo cfg repoName imgs).migrateCount
        + (processRepo cfg repoName imgs).keepCount
      = (imagesInDateRange cfg.startDate cfg.endDate imgs).length
    ∧ (processRepo cfg repoName imgs).migrateCount
      = (imgs.filter
          (imageEligible cfg.startDate cfg.endDate (oneYearAgo cfg.now))).length
    ∧ processRepo cfg repoName imgs
      = processRepo cfg repoName (imagesInDateRange cfg.startDate cfg.endDate imgs)
    ∧ (processRepo cfg repoName imgs).migrateSize
      = ((imgs.filter
          (imageEligible cfg.startDate cfg.endDate (oneYearAgo cfg.now))).map
            (fun i => i.imageSizeInBytes)).sum
    ∧ (processRepos cfg repos).totalSizeBytes
      = ((processRepos cfg repos).migrationDetails.map (fun d => d.size)).sum
    ∧ (processRepos cfg repos).totalImagesToMigrate
      = (processRepos cfg repos).migrationDetails.length := by
  have hfe : ∀ L : List ImageDetail,
      (imagesInDateRange cfg.startDate cfg.endDate L).filter
          (shouldMigrate (oneYearAgo cfg.now))
        = L.filter (imageEligible cfg.startDate cfg.endDate (oneYearAgo cfg.now)) := by
    intro L
    simp only [imagesInDateRange, List.filter_filter]
    exact List.filter_congr (fun a _ => by simp [imageEligible, Bool.and_comm])
  refine ⟨?_, ?_, ?_, ?_, ?_, ?_⟩
  · simp only [processRepo, foldl_migrateCount, foldl_keepCount, emptyRepoResult]
    simpa using length_filter_partition (shouldMigrate (oneYearAgo cfg.now))
      (imagesInDateRange cfg.startDate cfg.endDate imgs)
  · simp only [processRepo, foldl_migrateCount, emptyRepoResult, hfe imgs]
    simp
  · have hidem : imagesInDateRange cfg.startDate cfg.endDate
        (imagesInDateRange cfg.startDate cfg.endDate imgs)
      = imagesInDateRange cfg.startDate cfg.endDate imgs := by
      simp [imagesInDateRange, List.filter_filter]
    simp only [processRepo, hidem]
  · simp only [processRepo, foldl_migrateSize, emptyRepoResult, hfe imgs]
    simp
  · exact (processReposFrom_inv cfg repos initialAcc rfl rfl).1
  · exact (processReposFrom_inv cfg repos initialAcc rfl rfl).2

/-- Helper: the descending-by-size comparison is transitive. -/
theorem sizeDescLe_trans (a b c : MigrationDetail) :
    sizeDescLe a b = true → sizeDescLe b c = true → sizeDescLe a c = true := by
  intro h1 h2
  simp [sizeDescLe] at h1 h2 ⊢
  omega

/-- Helper: the descending-by-size comparison is total. -/
theorem sizeDescLe_total (a b : MigrationDetail) :
    (sizeDescLe a b || sizeDescLe b a) = true := by
  simp [sizeDescLe]
  omega

/-- C5: the top-N selection sorts the eligible-image details by size
descending, is stable (restricting both the input and the sorted list to any
fixed size yields the same sequence, so equal sizes keep encounter order),
truncates to the first 10 entries, and works on a fresh permuted copy: the
report keeps the original encounter-ordered detail list unchanged alongside
the ranked one. -/
theorem topTen_sorted_stable_truncated (l : List MigrationDetail)
    (acc : GlobalAcc) :
    List.Pairwise (fun a b => b.size ≤ a.size) (sortedMigrations l)
    ∧ (sortedMigrations l).length = min 10 l.length
    ∧ sortedMigrations l = (l.mergeSort sizeDescLe).take 10
    ∧ (l.mergeSort sizeDescLe).Perm l
    ∧ (∀ k : Int, (l.mergeSort sizeDescLe).filter (fun x => decide (x.size = k))
        = l.filter (fun x => decide (x.size = k)))
    ∧ (buildReport acc).migrationDetails = acc.migrationDetails
    ∧ (buildReport acc).topMigrations = sortedMigrations acc.migrationDetails := by
  have hperm := List.mergeSort_perm l sizeDescLe
  refine ⟨?_, ?_, rfl, hperm, ?_, rfl, rfl⟩
  · have hs := List.sorted_mergeSort sizeDescLe_trans sizeDescLe_total l
    have ht := List.Pairwise.sublist (List.take_sublist 10 _) hs
    exact ht.imp (fun hab => by simpa [sizeDescLe] using hab)
  · rw [sortedMigrations, List.length_take, hperm.length_eq]
  · intro k
    have hpair : (l.filter (fun x => decide (x.size = k))).Pairwise
        (fun a b => sizeDescLe a b = true) := by
      apply List.pairwise_of_forall_mem_list
      intro a ha b hb
      have ha' := (List.mem_filter.mp ha).2
      have hb' := (List.mem_filter.mp hb).2
      simp only [decide_eq_true_eq] at ha' hb'
      simp [sizeDescLe, ha', hb']
    have hstab : (l.filter (fun x => decide (x.size = k))).Sublist
        (l.mergeSort sizeDescLe) :=
      List.mergeSort_stable sizeDescLe_trans sizeDescLe_total hpair
        (List.filter_sublist l)
    have hff : (l.filter (fun x => decide (x.size = k))).filter
        (fun x => decide (x.size = k)) = l.filter (fun x => decide (x.size = k)) := by
      simp [List.filter_filter]
    have hsubf : (l.filter (fun x => decide (x.size = k))).Sublist
        ((l.mergeSort sizeDescLe).filter (fun x => decide (x.size = k))) := by
      have h2 := List.Sublist.filter (fun x => decide (x.size = k)) hstab
      rwa [hff] at h2
    have hlen : ((l.mergeSort sizeDescLe).filter
        (fun x => decide (x.size = k))).length
        = (l.filter (fun x => decide (x.size = k))).length :=
      (hperm.filter (fun x => decide (x.size = k))).length_eq
    exact (hsubf.eq_of_length hlen.symm).symm
